import Mathlib

/-!
Verification development for the action-execution core of the Open vSwitch
forwarding datapath (`lib/execute-actions.c`).

The file embeds the C source shallowly:

* Decoded netlink attributes (the attribute decoder lives in the netlink
  library, outside this file's source) are modelled, following the spec, as
  (discriminant, payload) records; nesting is explicit.
* The packet is a byte list plus the cached link-layer offset `l2`.
* Protocol field setters and encapsulation push/pop (`packet_set_ipv4`,
  `eth_push_vlan`, `push_mpls`, ... from the packets library, outside this
  file's source) are modelled as caller-supplied packet transformations.
* The caller-supplied output and userspace sinks are modelled as presence
  flags plus a trace of invocation events recording the forwarded arguments.
* `random_uint32` is modelled as an injected stream of 32-bit draws,
  consumed left to right.
* `NOT_REACHED()`, `ovs_assert` failure and a null-pointer dereference are
  the fatal outcomes; the executors return `Except Fatal St`.
-/

namespace Ovs

/-! ### Attribute discriminants

Numeric values follow the `linux/openvswitch.h` header of this era.  Only
their distinctness and the identity of the reserved (`UNSPEC`) and
max-sentinel values matter to the executors. -/

abbrev OVS_ACTION_ATTR_UNSPEC : Nat := 0
abbrev OVS_ACTION_ATTR_OUTPUT : Nat := 1
abbrev OVS_ACTION_ATTR_USERSPACE : Nat := 2
abbrev OVS_ACTION_ATTR_SET : Nat := 3
abbrev OVS_ACTION_ATTR_PUSH_VLAN : Nat := 4
abbrev OVS_ACTION_ATTR_POP_VLAN : Nat := 5
abbrev OVS_ACTION_ATTR_SAMPLE : Nat := 6
abbrev OVS_ACTION_ATTR_PUSH_MPLS : Nat := 7
abbrev OVS_ACTION_ATTR_POP_MPLS : Nat := 8
abbrev OVS_ACTION_ATTR_MAX_SENTINEL : Nat := 9

abbrev OVS_KEY_ATTR_UNSPEC : Nat := 0
abbrev OVS_KEY_ATTR_ENCAP : Nat := 1
abbrev OVS_KEY_ATTR_PRIORITY : Nat := 2
abbrev OVS_KEY_ATTR_IN_PORT : Nat := 3
abbrev OVS_KEY_ATTR_ETHERNET : Nat := 4
abbrev OVS_KEY_ATTR_VLAN : Nat := 5
abbrev OVS_KEY_ATTR_ETHERTYPE : Nat := 6
abbrev OVS_KEY_ATTR_IPV4 : Nat := 7
abbrev OVS_KEY_ATTR_IPV6 : Nat := 8
abbrev OVS_KEY_ATTR_TCP : Nat := 9
abbrev OVS_KEY_ATTR_UDP : Nat := 10
abbrev OVS_KEY_ATTR_ICMP : Nat := 11
abbrev OVS_KEY_ATTR_ICMPV6 : Nat := 12
abbrev OVS_KEY_ATTR_ARP : Nat := 13
abbrev OVS_KEY_ATTR_ND : Nat := 14
abbrev OVS_KEY_ATTR_SKB_MARK : Nat := 15
abbrev OVS_KEY_ATTR_TUNNEL : Nat := 16
abbrev OVS_KEY_ATTR_MPLS : Nat := 17
abbrev OVS_KEY_ATTR_MAX_SENTINEL : Nat := 18

abbrev OVS_SAMPLE_ATTR_UNSPEC : Nat := 0
abbrev OVS_SAMPLE_ATTR_PROBABILITY : Nat := 1
abbrev OVS_SAMPLE_ATTR_ACTIONS : Nat := 2
abbrev OVS_SAMPLE_ATTR_MAX_SENTINEL : Nat := 3

/-! ### Decoded attributes

Modelled from the spec: the attribute decoder produces an ordered sequence
of (discriminant, payload) records; a payload is either a scalar, a
fixed-shape key struct, or a nested attribute sequence.  Reading a payload
through a mismatched shape reinterprets trusted-but-wrong bytes in the C
code; the model returns a fixed default in that case, which no theorem
below relies on. -/

inductive NlData : Type where
  /-- 32-bit scalar payload (`nl_attr_get_u32` / `nl_attr_get_be32`). -/
  | u32 (v : Nat)
  /-- 16-bit scalar payload (`nl_attr_get_be16`). -/
  | be16 (v : Nat)
  /-- `struct ovs_key_ethernet`: 6-byte source and destination addresses. -/
  | ethKey (src dst : List Nat)
  /-- `struct ovs_key_ipv4`. -/
  | ipv4Key (src dst proto tos ttl frag : Nat)
  /-- `struct ovs_key_ipv6`; the 128-bit addresses are opaque scalars here. -/
  | ipv6Key (src dst label proto tclass hlimit : Nat)
  /-- `struct ovs_key_tcp`. -/
  | tcpKey (src dst : Nat)
  /-- `struct ovs_key_udp`. -/
  | udpKey (src dst : Nat)
  /-- `struct ovs_action_push_vlan`. -/
  | vlanPush (tpid tci : Nat)
  /-- `struct ovs_action_push_mpls`. -/
  | mplsPush (lse ethertype : Nat)
  /-- nested attribute sequence (set payload, sample payload, sample
  actions payload). -/
  | nestedList (subs : List (Nat × NlData))

/-- A decoded netlink attribute: discriminant plus payload. -/
abbrev NlAttr : Type := Nat × NlData

/-- `nl_attr_type`. -/
def nl_attr_type (a : NlAttr) : Nat := a.1

/-- `nl_attr_get_u32`: read the payload as a host-order 32-bit value. -/
def nl_attr_get_u32 (a : NlAttr) : Nat :=
  match a.2 with
  | .u32 v => v % 4294967296
  | _ => 0

/-- `nl_attr_get_be32`: read the payload as a big-endian 32-bit value
(opaque scalar in this model). -/
def nl_attr_get_be32 (a : NlAttr) : Nat :=
  match a.2 with
  | .u32 v => v % 4294967296
  | _ => 0

/-- `nl_attr_get_be16`: read the payload as a big-endian 16-bit value. -/
def nl_attr_get_be16 (a : NlAttr) : Nat :=
  match a.2 with
  | .be16 v => v % 65536
  | _ => 0

/-- `nl_attr_get` on an attribute whose payload is a nested attribute
sequence (used by the sample executor and for the sample actions list). -/
def nl_attr_nested (a : NlAttr) : List NlAttr :=
  match a.2 with
  | .nestedList subs => subs
  | _ => []

/-- `nl_attr_get` on a set action: the payload holds the single embedded
field-group attribute; reading it from the nested sequence takes its first
record. -/
def nl_attr_get_set (a : NlAttr) : NlAttr :=
  match a.2 with
  | .nestedList (k :: _) => k
  | _ => (0, .u32 0)

/-! ### Packet model -/

/-- `struct ofpbuf` as used here: the byte buffer plus the cached offset of
the link-layer header (`packet->l2`). -/
structure Ofpbuf : Type where
  data : List Nat
  l2 : Nat
deriving Repr, DecidableEq

/-- `memcpy` into the packet buffer: overwrite `bs.length` bytes starting
at offset `off`, leaving the buffer length unchanged. -/
def writeBytes (data : List Nat) (off : Nat) (bs : List Nat) : List Nat :=
  (List.range data.length).map fun i =>
    if off ≤ i ∧ i < off + bs.length then bs.getD (i - off) 0 else data.getD i 0

/-- `eth_set_src_and_dst`: `struct eth_header` places the destination
address at offset 0 of the link-layer header and the source address at
offset 6; the source copies `eth_src` first, then `eth_dst`. -/
def eth_set_src_and_dst (packet : Ofpbuf) (src dst : List Nat) : Ofpbuf :=
  { packet with
    data := writeBytes (writeBytes packet.data (packet.l2 + 6) src) packet.l2 dst }

/-! ### Execution state, collaborators, fatal outcomes -/

/-- `struct flow`: the decoded flow key, opaque to this core. -/
structure Flow : Type where
  val : Nat
deriving Repr, DecidableEq

/-- One sink invocation, recording the forwarded arguments.  The opaque
`dp` context is forwarded unchanged to every sink and is left implicit. -/
inductive Event : Type where
  /-- `output(dp, packet, port)`. -/
  | output (packet : Ofpbuf) (port : Nat)
  /-- `userspace(dp, packet, key, a)`. -/
  | userspace (packet : Ofpbuf) (key : Flow) (a : NlAttr)

/-- Mutable state threaded through one `execute_actions` call: the packet,
the flow key the caller's pointer designates (none models a null pointer),
the position in the injected random stream, and the trace of sink
invocations so far. -/
structure St : Type where
  packet : Ofpbuf
  key : Option Flow
  rngIdx : Nat
  events : List Event

/-- Modelled from the spec: the protocol field setters and encapsulation
push/pop routines of the packets library (`packet_set_ipv4`,
`packet_set_ipv6`, `packet_set_tcp_port`, `packet_set_udp_port`,
`set_mpls_lse`, `eth_push_vlan`, `eth_pop_vlan`, `push_mpls`, `pop_mpls`)
live outside this file's source; they are caller-supplied packet
transformations here. -/
structure Ext : Type where
  packet_set_ipv4 : Ofpbuf → Nat → Nat → Nat → Nat → Ofpbuf
  packet_set_ipv6 : Ofpbuf → Nat → Nat → Nat → Nat → Nat → Nat → Ofpbuf
  packet_set_tcp_port : Ofpbuf → Nat → Nat → Ofpbuf
  packet_set_udp_port : Ofpbuf → Nat → Nat → Ofpbuf
  set_mpls_lse : Ofpbuf → Nat → Ofpbuf
  eth_push_vlan : Ofpbuf → Nat → Ofpbuf
  eth_pop_vlan : Ofpbuf → Ofpbuf
  push_mpls : Ofpbuf → Nat → Nat → Ofpbuf
  pop_mpls : Ofpbuf → Nat → Ofpbuf

/-- The per-call environment: the external packet routines, the injected
random stream, and presence of the opaque `dp` context and of the two
caller-supplied sinks (null function pointers are modelled as `false`). -/
structure Env : Type where
  ext : Ext
  rng : Nat → Nat
  dp : Bool
  output : Bool
  userspace : Bool

/-- `random_uint32`: the next 32-bit draw of the injected stream. -/
def random_uint32 (env : Env) (st : St) : Nat :=
  env.rng st.rngIdx % 4294967296

/-- Fatal outcomes: `NOT_REACHED()`, a failed `ovs_assert`, and the
dereference of a null `subactions` pointer. -/
inductive Fatal : Type where
  | notReached
  | assertFailed
  | nullDeref
deriving Repr, DecidableEq

/-! ### Field-set executor -/

/-- `execute_set_action`: dispatch on the field-group sub-discriminant.
Priority, tunnel and mark are explicitly unimplemented no-ops; Ethernet,
IPv4, IPv6, TCP, UDP and MPLS call the matching field setter; everything
else (the match-only groups, the reserved value, the sentinel, and the
`default:` label) is `NOT_REACHED()`. -/
def execute_set_action (ext : Ext) (packet : Ofpbuf) (a : NlAttr) :
    Except Fatal Ofpbuf :=
  let type := nl_attr_type a
  if type = OVS_KEY_ATTR_PRIORITY ∨ type = OVS_KEY_ATTR_TUNNEL ∨
      type = OVS_KEY_ATTR_SKB_MARK then
    .ok packet
  else if type = OVS_KEY_ATTR_ETHERNET then
    match a.2 with
    | .ethKey src dst => .ok (eth_set_src_and_dst packet src dst)
    | _ => .ok (eth_set_src_and_dst packet [] [])
  else if type = OVS_KEY_ATTR_IPV4 then
    match a.2 with
    | .ipv4Key src dst _ tos ttl _ => .ok (ext.packet_set_ipv4 packet src dst tos ttl)
    | _ => .ok (ext.packet_set_ipv4 packet 0 0 0 0)
  else if type = OVS_KEY_ATTR_IPV6 then
    match a.2 with
    | .ipv6Key src dst label proto tclass hlimit =>
      .ok (ext.packet_set_ipv6 packet proto src dst tclass label hlimit)
    | _ => .ok (ext.packet_set_ipv6 packet 0 0 0 0 0 0)
  else if type = OVS_KEY_ATTR_TCP then
    match a.2 with
    | .tcpKey src dst => .ok (ext.packet_set_tcp_port packet src dst)
    | _ => .ok (ext.packet_set_tcp_port packet 0 0)
  else if type = OVS_KEY_ATTR_UDP then
    match a.2 with
    | .udpKey src dst => .ok (ext.packet_set_udp_port packet src dst)
    | _ => .ok (ext.packet_set_udp_port packet 0 0)
  else if type = OVS_KEY_ATTR_MPLS then
    .ok (ext.set_mpls_lse packet (nl_attr_get_be32 a))
  else
    .error .notReached

/-! ### Sample sub-attribute scan

`execute_sample` first loops over the sample attribute's nested
sub-attributes (`NL_NESTED_FOR_EACH_UNSAFE`): a probability sub-attribute
consumes one random draw and returns early when the draw is not below the
threshold, an actions sub-attribute is remembered in `subactions`, and any
other sub-discriminant is `NOT_REACHED()`.  The scan is split out so the
loop is a plain structural recursion; `execute_sample` then acts on its
result. -/

/-- Result of the sub-attribute loop: either the early `return` on a failed
probability test, or the end of the loop with the final `subactions`
value (`none` models the initial null pointer). -/
inductive ScanResult : Type where
  | earlyReturn (st : St)
  | done (st : St) (subactions : Option NlAttr)

/-- The sub-attribute loop of `execute_sample`. -/
def sample_scan (env : Env) (st : St) (subactions : Option NlAttr) :
    List NlAttr → Except Fatal ScanResult
  | [] => .ok (.done st subactions)
  | a :: rest =>
    let type := nl_attr_type a
    if type = OVS_SAMPLE_ATTR_PROBABILITY then
      if random_uint32 env st ≥ nl_attr_get_u32 a then
        .ok (.earlyReturn { st with rngIdx := st.rngIdx + 1 })
      else
        sample_scan env { st with rngIdx := st.rngIdx + 1 } subactions rest
    else if type = OVS_SAMPLE_ATTR_ACTIONS then
      sample_scan env st (some a) rest
    else
      .error .notReached

/-- The state a scan result carries. -/
def ScanResult.state : ScanResult → St
  | .earlyReturn st => st
  | .done st _ => st

/-- The sub-attribute loop touches only the random-stream position: packet,
flow key and event trace are untouched. -/
theorem sample_scan_state (env : Env) :
    ∀ (l : List NlAttr) (st : St) (acc : Option NlAttr) (r : ScanResult),
    sample_scan env st acc l = .ok r →
    r.state.key = st.key ∧ r.state.packet = st.packet ∧
      r.state.events = st.events := by
  intro l
  induction l with
  | nil =>
    intro st acc r h
    simp [sample_scan] at h
    simp [← h, ScanResult.state]
  | cons a rest ih =>
    intro st acc r h
    simp only [sample_scan] at h
    split_ifs at h with h1 h2 h3
    · simp at h
      simp [← h, ScanResult.state]
    · simpa using ih _ _ _ h
    · exact ih _ _ _ h

/-- If the loop runs to completion with a non-null `subactions`, that value
is either the initial accumulator or an actions-typed member of the
scanned list. -/
theorem sample_scan_done_some (env : Env) :
    ∀ (l : List NlAttr) (st st' : St) (acc : Option NlAttr) (sa : NlAttr),
    sample_scan env st acc l = .ok (.done st' (some sa)) →
    acc = some sa ∨ (sa ∈ l ∧ sa.1 = OVS_SAMPLE_ATTR_ACTIONS) := by
  intro l
  induction l with
  | nil =>
    intro st st' acc sa h
    simp [sample_scan] at h
    exact .inl h.2
  | cons a rest ih =>
    intro st st' acc sa h
    simp only [sample_scan] at h
    split_ifs at h with h1 h2 h3
    · simp at h
    · rcases ih _ _ _ _ h with hacc | ⟨hm, ht⟩
      · exact .inl hacc
      · exact .inr ⟨List.mem_cons_of_mem _ hm, ht⟩
    · rcases ih _ _ _ _ h with hacc | ⟨hm, ht⟩
      · cases hacc
        exact .inr ⟨List.mem_cons_self _ _, h3⟩
      · exact .inr ⟨List.mem_cons_of_mem _ hm, ht⟩

/-- If the loop runs to completion with `subactions` still null, the
initial accumulator was null and the scanned list held no actions-typed
sub-attribute. -/
theorem sample_scan_done_none (env : Env) :
    ∀ (l : List NlAttr) (st st' : St) (acc : Option NlAttr),
    sample_scan env st acc l = .ok (.done st' none) →
    acc = none ∧ ∀ a ∈ l, a.1 ≠ OVS_SAMPLE_ATTR_ACTIONS := by
  intro l
  induction l with
  | nil =>
    intro st st' acc h
    simp [sample_scan] at h
    simp [h.2]
  | cons a rest ih =>
    intro st st' acc h
    simp only [sample_scan] at h
    split_ifs at h with h1 h2 h3
    · simp at h
    · rcases ih _ _ _ h with ⟨hacc, hall⟩
      refine ⟨hacc, ?_⟩
      intro b hb
      rcases List.mem_cons.mp hb with hb | hb
      · subst hb
        simp [nl_attr_type] at h1
        simp [OVS_SAMPLE_ATTR_ACTIONS, OVS_SAMPLE_ATTR_PROBABILITY] at h1 ⊢
        omega
      · exact hall b hb
    · rcases ih _ _ _ h with ⟨hacc, _⟩
      cases hacc

/-- The nested payload of an attribute is smaller than the attribute. -/
theorem sizeOf_nl_attr_nested_lt (a : NlAttr) :
    sizeOf (nl_attr_nested a) < sizeOf a := by
  rcases a with ⟨t, d⟩
  cases d <;> simp [nl_attr_nested] <;> omega

/-! ### The executors

`execute_sample` and `execute_actions` are mutually recursive: the only
recursive path is sample → dispatcher, on the nested actions payload. -/

mutual

/-- `execute_sample`: scan the sample attribute's sub-attributes (consuming
one random draw per probability sub-attribute and returning early with no
further effect when a draw is not below its threshold), then execute the
remembered nested actions list; `subactions` still null at that point is a
null-pointer dereference. -/
def execute_sample (env : Env) (st : St) (action : NlAttr) :
    Except Fatal St :=
  match h : sample_scan env st none (nl_attr_nested action) with
  | .error e => .error e
  | .ok (.earlyReturn st') => .ok st'
  | .ok (.done _ none) => .error .nullDeref
  | .ok (.done st' (some sa)) => execute_actions env st' (nl_attr_nested sa)
termination_by sizeOf action
decreasing_by
  have hm : sa ∈ nl_attr_nested action := by
    rcases sample_scan_done_some env _ _ _ _ _ h with hacc | ⟨hm, _⟩
    · cases hacc
    · exact hm
  have h1 := sizeOf_nl_attr_nested_lt sa
  have h2 := List.sizeOf_lt_of_mem hm
  have h3 := sizeOf_nl_attr_nested_lt action
  omega

/-- `execute_actions`: iterate the action list left to right, dispatching
on the top-level discriminant.  Output and userspace check their required
collaborators with `ovs_assert` and invoke the matching sink; push/pop and
set mutate the packet; sample recurses; the reserved discriminant and the
max sentinel are `NOT_REACHED()`; any other unrecognized discriminant
matches no case of the C `switch`, which has no `default` label, and is
silently skipped. -/
def execute_actions (env : Env) (st : St) (actions : List NlAttr) :
    Except Fatal St :=
  match actions with
  | [] => .ok st
  | a :: rest =>
    let type := nl_attr_type a
    if type = OVS_ACTION_ATTR_OUTPUT then
      if env.dp && env.output then
        execute_actions env
          { st with events := st.events ++ [.output st.packet (nl_attr_get_u32 a)] }
          rest
      else .error .assertFailed
    else if type = OVS_ACTION_ATTR_USERSPACE then
      match env.dp && env.userspace, st.key with
      | true, some k =>
        execute_actions env
          { st with events := st.events ++ [.userspace st.packet k a] } rest
      | _, _ => .error .assertFailed
    else if type = OVS_ACTION_ATTR_PUSH_VLAN then
      match a.2 with
      | .vlanPush _ tci =>
        execute_actions env { st with packet := env.ext.eth_push_vlan st.packet tci } rest
      | _ =>
        execute_actions env { st with packet := env.ext.eth_push_vlan st.packet 0 } rest
    else if type = OVS_ACTION_ATTR_POP_VLAN then
      execute_actions env { st with packet := env.ext.eth_pop_vlan st.packet } rest
    else if type = OVS_ACTION_ATTR_PUSH_MPLS then
      match a.2 with
      | .mplsPush lse ethertype =>
        execute_actions env { st with packet := env.ext.push_mpls st.packet ethertype lse } rest
      | _ =>
        execute_actions env { st with packet := env.ext.push_mpls st.packet 0 0 } rest
    else if type = OVS_ACTION_ATTR_POP_MPLS then
      execute_actions env
        { st with packet := env.ext.pop_mpls st.packet (nl_attr_get_be16 a) } rest
    else if type = OVS_ACTION_ATTR_SET then
      match execute_set_action env.ext st.packet (nl_attr_get_set a) with
      | .ok p => execute_actions env { st with packet := p } rest
      | .error e => .error e
    else if type = OVS_ACTION_ATTR_SAMPLE then
      match execute_sample env st a with
      | .ok st' => execute_actions env st' rest
      | .error e => .error e
    else if type = OVS_ACTION_ATTR_UNSPEC ∨ type = OVS_ACTION_ATTR_MAX_SENTINEL then
      .error .notReached
    else
      execute_actions env st rest
termination_by sizeOf actions + 1
decreasing_by all_goals simp <;> omega

end

/-! ### Fuel-indexed executors

`execF` is the same algorithm with an explicit bound on the depth of
sample recursion (`none` = bound exhausted).  It is structurally
recursive, hence evaluates definitionally; the agreement theorems below
tie it to the executors above and settle termination. -/

/-- One `execute_sample` activation, with nested lists run by `runNested`. -/
def execSampleWith (runNested : St → List NlAttr → Option (Except Fatal St))
    (env : Env) (st : St) (action : NlAttr) : Option (Except Fatal St) :=
  match sample_scan env st none (nl_attr_nested action) with
  | .error e => some (.error e)
  | .ok (.earlyReturn st') => some (.ok st')
  | .ok (.done _ none) => some (.error .nullDeref)
  | .ok (.done st' (some sa)) => runNested st' (nl_attr_nested sa)

/-- One `execute_actions` activation, with nested lists run by `runNested`. -/
def execListWith (runNested : St → List NlAttr → Option (Except Fatal St))
    (env : Env) : St → List NlAttr → Option (Except Fatal St)
  | st, [] => some (.ok st)
  | st, a :: rest =>
    let type := nl_attr_type a
    if type = OVS_ACTION_ATTR_OUTPUT then
      if env.dp && env.output then
        execListWith runNested env
          { st with events := st.events ++ [.output st.packet (nl_attr_get_u32 a)] }
          rest
      else some (.error .assertFailed)
    else if type = OVS_ACTION_ATTR_USERSPACE then
      match env.dp && env.userspace, st.key with
      | true, some k =>
        execListWith runNested env
          { st with events := st.events ++ [.userspace st.packet k a] } rest
      | _, _ => some (.error .assertFailed)
    else if type = OVS_ACTION_ATTR_PUSH_VLAN then
      match a.2 with
      | .vlanPush _ tci =>
        execListWith runNested env
          { st with packet := env.ext.eth_push_vlan st.packet tci } rest
      | _ =>
        execListWith runNested env
          { st with packet := env.ext.eth_push_vlan st.packet 0 } rest
    else if type = OVS_ACTION_ATTR_POP_VLAN then
      execListWith runNested env
        { st with packet := env.ext.eth_pop_vlan st.packet } rest
    else if type = OVS_ACTION_ATTR_PUSH_MPLS then
      match a.2 with
      | .mplsPush lse ethertype =>
        execListWith runNested env
          { st with packet := env.ext.push_mpls st.packet ethertype lse } rest
      | _ =>
        execListWith runNested env
          { st with packet := env.ext.push_mpls st.packet 0 0 } rest
    else if type = OVS_ACTION_ATTR_POP_MPLS then
      execListWith runNested env
        { st with packet := env.ext.pop_mpls st.packet (nl_attr_get_be16 a) } rest
    else if type = OVS_ACTION_ATTR_SET then
      match execute_set_action env.ext st.packet (nl_attr_get_set a) with
      | .ok p => execListWith runNested env { st with packet := p } rest
      | .error e => some (.error e)
    else if type = OVS_ACTION_ATTR_SAMPLE then
      match execSampleWith runNested env st a with
      | none => none
      | some (.ok st') => execListWith runNested env st' rest
      | some (.error e) => some (.error e)
    else if type = OVS_ACTION_ATTR_UNSPEC ∨ type = OVS_ACTION_ATTR_MAX_SENTINEL then
      some (.error .notReached)
    else
      execListWith runNested env st rest

/-- The dispatcher with an explicit sample-recursion bound. -/
def execF (env : Env) : Nat → St → List NlAttr → Option (Except Fatal St)
  | 0, _, _ => none
  | fuel + 1, st, actions => execListWith (execF env fuel) env st actions

/-- The sample executor with an explicit sample-recursion bound. -/
def execSampleF (env : Env) (fuel : Nat) (st : St) (action : NlAttr) :
    Option (Except Fatal St) :=
  execSampleWith (execF env fuel) env st action

/-! ### Sample nesting depth and encoded buffer size -/

mutual

/-- Sample-recursion depth an attribute can demand: only a sample
attribute demands any, namely the demand of its sub-attribute list. -/
def sampleDepthA : NlAttr → Nat
  | (t, .nestedList subs) =>
    if t = OVS_ACTION_ATTR_SAMPLE then sampleDepthSubs subs else 0
  | _ => 0
termination_by a => sizeOf a

/-- Depth demanded by a sample attribute's sub-attribute list: one more
than the demand of the deepest nested payload. -/
def sampleDepthSubs : List NlAttr → Nat
  | [] => 0
  | (_, .nestedList l) :: rest => max (1 + sampleDepthL l) (sampleDepthSubs rest)
  | _ :: rest => max 1 (sampleDepthSubs rest)
termination_by l => sizeOf l

/-- Depth demanded by an action list: the deepest demand of its members. -/
def sampleDepthL : List NlAttr → Nat
  | [] => 0
  | a :: rest => max (sampleDepthA a) (sampleDepthL rest)
termination_by l => sizeOf l

end

mutual

/-- Encoded payload length of an attribute payload, in buffer bytes
(4-byte header excluded, short payloads padded to the 4-byte boundary). -/
def nla_payload_size : NlData → Nat
  | .u32 _ => 4
  | .be16 _ => 4
  | .ethKey _ _ => 12
  | .ipv4Key _ _ _ _ _ _ => 12
  | .ipv6Key _ _ _ _ _ _ => 40
  | .tcpKey _ _ => 4
  | .udpKey _ _ => 4
  | .vlanPush _ _ => 4
  | .mplsPush _ _ => 8
  | .nestedList subs => actions_len subs

/-- Encoded length of an action list in buffer bytes (`actions_len`):
a 4-byte header plus the padded payload, per attribute. -/
def actions_len : List NlAttr → Nat
  | [] => 0
  | (_, d) :: rest => 4 + nla_payload_size d + actions_len rest

end

/-- Unfolding `sampleDepthSubs` through `nl_attr_nested`. -/
theorem sampleDepthSubs_cons (sa : NlAttr) (rest : List NlAttr) :
    sampleDepthSubs (sa :: rest) =
      max (1 + sampleDepthL (nl_attr_nested sa)) (sampleDepthSubs rest) := by
  rcases sa with ⟨t, d⟩
  cases d <;> simp [sampleDepthSubs, nl_attr_nested, sampleDepthL]

/-- A member's nested payload bounds the sub-attribute list demand. -/
theorem le_sampleDepthSubs {sa : NlAttr} {subs : List NlAttr}
    (h : sa ∈ subs) :
    1 + sampleDepthL (nl_attr_nested sa) ≤ sampleDepthSubs subs := by
  induction subs with
  | nil => simp at h
  | cons b rest ih =>
    rw [sampleDepthSubs_cons]
    rcases List.mem_cons.mp h with hb | hm
    · subst hb
      exact le_max_left _ _
    · exact le_trans (ih hm) (le_max_right _ _)

/-- A member's demand bounds the list demand. -/
theorem le_sampleDepthL {a : NlAttr} {as : List NlAttr} (h : a ∈ as) :
    sampleDepthA a ≤ sampleDepthL as := by
  induction as with
  | nil => simp at h
  | cons b rest ih =>
    rcases List.mem_cons.mp h with hb | hm
    · subst hb
      simp [sampleDepthL]
    · simp [sampleDepthL]
      exact .inr (ih hm)

/-- For a sample attribute, every nested sub-attribute payload demands
strictly less depth than the attribute itself. -/
theorem sampleDepthA_sample {a sa : NlAttr}
    (hs : a.1 = OVS_ACTION_ATTR_SAMPLE) (hm : sa ∈ nl_attr_nested a) :
    1 + sampleDepthL (nl_attr_nested sa) ≤ sampleDepthA a := by
  rcases a with ⟨t, d⟩
  cases d <;> simp [nl_attr_nested] at hm
  case nestedList subs =>
    simp at hs
    simp [sampleDepthA, hs]
    exact le_sampleDepthSubs hm

/-! ### Agreement between the executors and their fuel-indexed forms -/

/-- Sample-level soundness of a fuel step, parametric in the nested-list
runner. -/
theorem execSampleWith_sound
    (runNested : St → List NlAttr → Option (Except Fatal St)) (env : Env)
    (hrun : ∀ st l r, runNested st l = some r → execute_actions env st l = r) :
    ∀ st a r, execSampleWith runNested env st a = some r →
    execute_sample env st a = r := by
  intro st a r h
  unfold execSampleWith at h
  simp only [execute_sample]
  split at h <;> split <;> simp_all

/-- List-level soundness of a fuel step, parametric in the nested-list
runner. -/
theorem execListWith_sound
    (runNested : St → List NlAttr → Option (Except Fatal St)) (env : Env)
    (hrun : ∀ st l r, runNested st l = some r → execute_actions env st l = r) :
    ∀ (as : List NlAttr) (st : St) (r : Except Fatal St),
    execListWith runNested env st as = some r → execute_actions env st as = r := by
  intro as
  induction as with
  | nil =>
    intro st r h
    simp [execListWith] at h
    rw [execute_actions.eq_def]
    simp [← h]
  | cons a rest ih =>
    rcases a with ⟨t, d⟩
    intro st r h
    rw [execute_actions.eq_def]
    simp only [execListWith] at h
    by_cases ht1 : t = OVS_ACTION_ATTR_OUTPUT
    · subst ht1
      cases hb : env.dp && env.output
      · simp [nl_attr_type, hb] at h ⊢
        exact h
      · simp [nl_attr_type, hb] at h ⊢
        exact ih _ _ h
    · by_cases ht2 : t = OVS_ACTION_ATTR_USERSPACE
      · subst ht2
        simp [nl_attr_type] at h ⊢
        cases hb : env.dp && env.userspace
        · simp [hb] at h ⊢
          exact h
        · cases hk : st.key
          · simp [hb, hk] at h ⊢
            exact h
          · simp [hb, hk] at h ⊢
            exact ih _ _ h
      · by_cases ht3 : t = OVS_ACTION_ATTR_PUSH_VLAN
        · subst ht3
          cases d <;> simp [nl_attr_type] at h ⊢ <;> exact ih _ _ h
        · by_cases ht4 : t = OVS_ACTION_ATTR_POP_VLAN
          · subst ht4
            simp [nl_attr_type] at h ⊢
            exact ih _ _ h
          · by_cases ht5 : t = OVS_ACTION_ATTR_PUSH_MPLS
            · subst ht5
              cases d <;> simp [nl_attr_type] at h ⊢ <;> exact ih _ _ h
            · by_cases ht6 : t = OVS_ACTION_ATTR_POP_MPLS
              · subst ht6
                simp [nl_attr_type] at h ⊢
                exact ih _ _ h
              · by_cases ht7 : t = OVS_ACTION_ATTR_SET
                · subst ht7
                  simp [nl_attr_type] at h ⊢
                  cases hset : execute_set_action env.ext st.packet
                      (nl_attr_get_set (OVS_ACTION_ATTR_SET, d))
                  · simp [hset] at h ⊢
                    exact h
                  · simp [hset] at h ⊢
                    exact ih _ _ h
                · by_cases ht8 : t = OVS_ACTION_ATTR_SAMPLE
                  · subst ht8
                    simp [nl_attr_type] at h ⊢
                    cases hs : execSampleWith runNested env st (OVS_ACTION_ATTR_SAMPLE, d)
                    · simp [hs] at h
                    · rename_i v
                      have hv := execSampleWith_sound runNested env hrun _ _ _ hs
                      cases v
                      · simp [hs] at h
                        simp [hv]
                        exact h
                      · simp [hs] at h
                        simp [hv]
                        exact ih _ _ h
                  · by_cases ht9 : t = OVS_ACTION_ATTR_UNSPEC ∨
                        t = OVS_ACTION_ATTR_MAX_SENTINEL
                    · simp [nl_attr_type, ht1, ht2, ht3, ht4, ht5, ht6, ht7, ht8,
                        ht9] at h ⊢
                      exact h
                    · simp [nl_attr_type, ht1, ht2, ht3, ht4, ht5, ht6, ht7, ht8,
                        ht9] at h ⊢
                      exact ih _ _ h

/-- Soundness: whenever the fuel-indexed dispatcher yields a result, the
dispatcher computes the same result. -/
theorem execF_sound (env : Env) :
    ∀ (fuel : Nat) (st : St) (as : List NlAttr) (r : Except Fatal St),
    execF env fuel st as = some r → execute_actions env st as = r := by
  intro fuel
  induction fuel with
  | zero =>
    intro st as r h
    simp [execF] at h
  | succ n ihn =>
    intro st as r h
    exact execListWith_sound (execF env n) env ihn as st r h

/-- Sample-level soundness with explicit fuel. -/
theorem execSampleF_sound (env : Env) (fuel : Nat) (st : St) (a : NlAttr)
    (r : Except Fatal St) (h : execSampleF env fuel st a = some r) :
    execute_sample env st a = r :=
  execSampleWith_sound (execF env fuel) env (execF_sound env fuel) st a r h

/-- Completeness: fuel above the sample-nesting demand is enough for the
fuel-indexed dispatcher to finish. -/
theorem execF_isSome (env : Env) :
    ∀ (fuel : Nat) (as : List NlAttr) (st : St),
    sampleDepthL as < fuel → (execF env fuel st as).isSome := by
  intro fuel
  induction fuel with
  | zero =>
    intro as st hd
    omega
  | succ n ihn =>
    have inner : ∀ (as : List NlAttr) (st : St), sampleDepthL as ≤ n →
        (execListWith (execF env n) env st as).isSome := by
      intro as
      induction as with
      | nil =>
        intro st hd
        simp [execListWith]
      | cons a rest ih =>
        rcases a with ⟨t, d⟩
        intro st hd
        simp only [sampleDepthL] at hd
        rcases Nat.max_le.mp hd with ⟨hA, hR⟩
        simp only [execListWith]
        by_cases ht1 : t = OVS_ACTION_ATTR_OUTPUT
        · subst ht1
          cases hb : env.dp && env.output <;> simp [nl_attr_type, hb]
          exact ih _ hR
        · by_cases ht2 : t = OVS_ACTION_ATTR_USERSPACE
          · subst ht2
            simp [nl_attr_type]
            cases hb : env.dp && env.userspace
            · simp [hb]
            · cases hk : st.key <;> simp [hb, hk]
              exact ih _ hR
          · by_cases ht3 : t = OVS_ACTION_ATTR_PUSH_VLAN
            · subst ht3
              cases d <;> simp [nl_attr_type] <;> exact ih _ hR
            · by_cases ht4 : t = OVS_ACTION_ATTR_POP_VLAN
              · subst ht4
                simp [nl_attr_type]
                exact ih _ hR
              · by_cases ht5 : t = OVS_ACTION_ATTR_PUSH_MPLS
                · subst ht5
                  cases d <;> simp [nl_attr_type] <;> exact ih _ hR
                · by_cases ht6 : t = OVS_ACTION_ATTR_POP_MPLS
                  · subst ht6
                    simp [nl_attr_type]
                    exact ih _ hR
                  · by_cases ht7 : t = OVS_ACTION_ATTR_SET
                    · subst ht7
                      simp [nl_attr_type]
                      cases hset : execute_set_action env.ext st.packet
                          (nl_attr_get_set (OVS_ACTION_ATTR_SET, d)) <;>
                        simp [hset]
                      exact ih _ hR
                    · by_cases ht8 : t = OVS_ACTION_ATTR_SAMPLE
                      · subst ht8
                        simp only [nl_attr_type]
                        simp
                        unfold execSampleWith
                        cases hscan : sample_scan env st none
                            (nl_attr_nested (OVS_ACTION_ATTR_SAMPLE, d)) with
                        | error e => simp
                        | ok sres =>
                          cases sres with
                          | earlyReturn st' =>
                            simp
                            exact ih _ hR
                          | done st' sub =>
                            cases sub with
                            | none => simp
                            | some sa =>
                              simp only []
                              have hm : sa ∈ nl_attr_nested (OVS_ACTION_ATTR_SAMPLE, d) := by
                                rcases sample_scan_done_some env _ _ _ _ _ hscan with
                                  hacc | ⟨hm, _⟩
                                · cases hacc
                                · exact hm
                              have hdep : sampleDepthL (nl_attr_nested sa) < n := by
                                have := sampleDepthA_sample (a := (OVS_ACTION_ATTR_SAMPLE, d))
                                  rfl hm
                                omega
                              have hnest := ihn (nl_attr_nested sa) st' hdep
                              rcases Option.isSome_iff_exists.mp hnest with ⟨rr, hrr⟩
                              rw [hrr]
                              cases rr with
                              | error e => simp
                              | ok st2 =>
                                simp
                                exact ih _ hR
                      · by_cases ht9 : t = OVS_ACTION_ATTR_UNSPEC ∨
                            t = OVS_ACTION_ATTR_MAX_SENTINEL
                        · simp [nl_attr_type, ht1, ht2, ht3, ht4, ht5, ht6, ht7,
                            ht8, ht9]
                        · simp [nl_attr_type, ht1, ht2, ht3, ht4, ht5, ht6, ht7,
                            ht8, ht9]
                          exact ih _ hR
    intro as st hd
    exact inner as st (Nat.lt_succ_iff.mp hd)

/-- Agreement: with fuel above the sample-nesting demand, the fuel-indexed
dispatcher computes exactly what the dispatcher computes. -/
theorem execF_agrees (env : Env) (fuel : Nat) (as : List NlAttr) (st : St)
    (hd : sampleDepthL as < fuel) :
    execF env fuel st as = some (execute_actions env st as) := by
  rcases Option.isSome_iff_exists.mp (execF_isSome env fuel as st hd) with ⟨r, hr⟩
  rw [hr, execF_sound env fuel st as r hr]

/-! ### Flow-key preservation -/

/-- Sample-level key preservation of a fuel step. -/
theorem execSampleWith_key
    (runNested : St → List NlAttr → Option (Except Fatal St)) (env : Env)
    (hrun : ∀ st l st', runNested st l = some (.ok st') → st'.key = st.key) :
    ∀ st a st', execSampleWith runNested env st a = some (.ok st') →
    st'.key = st.key := by
  intro st a st' h
  unfold execSampleWith at h
  split at h <;> rename_i hscan
  · simp at h
  · simp at h
    have := sample_scan_state env _ _ _ _ hscan
    simp [ScanResult.state] at this
    rw [← h]
    exact this.1
  · simp at h
  · have := sample_scan_state env _ _ _ _ hscan
    simp [ScanResult.state] at this
    rw [hrun _ _ _ h]
    exact this.1

/-- List-level key preservation of a fuel step. -/
theorem execListWith_key
    (runNested : St → List NlAttr → Option (Except Fatal St)) (env : Env)
    (hrun : ∀ st l st', runNested st l = some (.ok st') → st'.key = st.key) :
    ∀ (as : List NlAttr) (st st' : St),
    execListWith runNested env st as = some (.ok st') → st'.key = st.key := by
  intro as
  induction as with
  | nil =>
    intro st st' h
    simp [execListWith] at h
    rw [← h]
  | cons a rest ih =>
    rcases a with ⟨t, d⟩
    intro st st' h
    simp only [execListWith] at h
    by_cases ht1 : t = OVS_ACTION_ATTR_OUTPUT
    · subst ht1
      cases hb : env.dp && env.output
      · simp [nl_attr_type, hb] at h
      · simp [nl_attr_type, hb] at h
        rw [ih _ _ h]
    · by_cases ht2 : t = OVS_ACTION_ATTR_USERSPACE
      · subst ht2
        simp [nl_attr_type] at h
        cases hb : env.dp && env.userspace
        · simp [hb] at h
        · cases hk : st.key
          · simp [hb, hk] at h
          · simp [hb, hk] at h
            rw [ih _ _ h]
      · by_cases ht3 : t = OVS_ACTION_ATTR_PUSH_VLAN
        · subst ht3
          cases d <;> simp [nl_attr_type] at h <;> rw [ih _ _ h]
        · by_cases ht4 : t = OVS_ACTION_ATTR_POP_VLAN
          · subst ht4
            simp [nl_attr_type] at h
            rw [ih _ _ h]
          · by_cases ht5 : t = OVS_ACTION_ATTR_PUSH_MPLS
            · subst ht5
              cases d <;> simp [nl_attr_type] at h <;> rw [ih _ _ h]
            · by_cases ht6 : t = OVS_ACTION_ATTR_POP_MPLS
              · subst ht6
                simp [nl_attr_type] at h
                rw [ih _ _ h]
              · by_cases ht7 : t = OVS_ACTION_ATTR_SET
                · subst ht7
                  simp [nl_attr_type] at h
                  cases hset : execute_set_action env.ext st.packet
                      (nl_attr_get_set (OVS_ACTION_ATTR_SET, d))
                  · simp [hset] at h
                  · simp [hset] at h
                    rw [ih _ _ h]
                · by_cases ht8 : t = OVS_ACTION_ATTR_SAMPLE
                  · subst ht8
                    simp [nl_attr_type] at h
                    cases hs : execSampleWith runNested env st (OVS_ACTION_ATTR_SAMPLE, d)
                    · simp [hs] at h
                    · rename_i v
                      cases v with
                      | error e => simp [hs] at h
                      | ok stm =>
                        simp [hs] at h
                        have h1 := execSampleWith_key runNested env hrun _ _ _ hs
                        rw [ih _ _ h, h1]
                  · by_cases ht9 : t = OVS_ACTION_ATTR_UNSPEC ∨
                        t = OVS_ACTION_ATTR_MAX_SENTINEL
                    · simp [nl_attr_type, ht1, ht2, ht3, ht4, ht5, ht6, ht7, ht8,
                        ht9] at h
                    · simp [nl_attr_type, ht1, ht2, ht3, ht4, ht5, ht6, ht7, ht8,
                        ht9] at h
                      rw [ih _ _ h]

/-- Key preservation for the fuel-indexed dispatcher. -/
theorem execF_key (env : Env) :
    ∀ (fuel : Nat) (as : List NlAttr) (st st' : St),
    execF env fuel st as = some (.ok st') → st'.key = st.key := by
  intro fuel
  induction fuel with
  | zero =>
    intro as st st' h
    simp [execF] at h
  | succ n ihn =>
    intro as st st' h
    exact execListWith_key (execF env n) env (fun st l st' hh => ihn l st st' hh)
      as st st' h

/-! ### The nesting demand is bounded by the encoded buffer size -/

/-- Unfolding `actions_len` on a cons cell. -/
theorem actions_len_cons (a : NlAttr) (rest : List NlAttr) :
    actions_len (a :: rest) = 4 + nla_payload_size a.2 + actions_len rest := by
  rcases a with ⟨t, d⟩
  simp [actions_len]

/-- A nested payload is no longer than the payload that encodes it. -/
theorem actions_len_nested_le (a : NlAttr) :
    actions_len (nl_attr_nested a) ≤ nla_payload_size a.2 := by
  rcases a with ⟨t, d⟩
  cases d <;> simp [nl_attr_nested, nla_payload_size, actions_len]

/-- An attribute's depth demand is at most its sub-attribute list demand. -/
theorem sampleDepthA_le_subs (a : NlAttr) :
    sampleDepthA a ≤ sampleDepthSubs (nl_attr_nested a) := by
  rcases a with ⟨t, d⟩
  cases d <;> simp [sampleDepthA, nl_attr_nested, sampleDepthSubs]
  split <;> simp

/-- Joint bound, by strong induction on the term size. -/
theorem depth_le_len_aux : ∀ (n : Nat),
    (∀ subs : List NlAttr, sizeOf subs ≤ n →
      sampleDepthSubs subs ≤ 1 + actions_len subs) ∧
    (∀ as : List NlAttr, sizeOf as ≤ n → sampleDepthL as ≤ actions_len as) := by
  intro n
  induction n with
  | zero =>
    constructor <;> (intro l hl; cases l <;> simp at hl)
  | succ n ihn =>
    constructor
    · intro subs h
      cases subs with
      | nil => simp [sampleDepthSubs]
      | cons sa rest =>
        rw [sampleDepthSubs_cons, actions_len_cons]
        have hsz : sizeOf (nl_attr_nested sa) < sizeOf sa :=
          sizeOf_nl_attr_nested_lt sa
        have hszc : 1 + sizeOf sa + sizeOf rest ≤ n + 1 := by
          simpa using h
        have b1 := ihn.2 (nl_attr_nested sa) (by omega)
        have b2 := ihn.1 rest (by omega)
        have b3 := actions_len_nested_le sa
        exact Nat.max_le.mpr ⟨by omega, by omega⟩
    · intro as h
      cases as with
      | nil => simp [sampleDepthL, actions_len]
      | cons a rest =>
        simp only [sampleDepthL]
        rw [actions_len_cons]
        have hsz : sizeOf (nl_attr_nested a) < sizeOf a :=
          sizeOf_nl_attr_nested_lt a
        have hszc : 1 + sizeOf a + sizeOf rest ≤ n + 1 := by
          simpa using h
        have b1 := ihn.1 (nl_attr_nested a) (by omega)
        have b2 := ihn.2 rest (by omega)
        have b3 := actions_len_nested_le a
        have b4 := sampleDepthA_le_subs a
        exact Nat.max_le.mpr ⟨by omega, by omega⟩

/-- The sample-nesting demand of an action list never exceeds the encoded
buffer length of the list. -/
theorem sampleDepthL_le_actions_len (as : List NlAttr) :
    sampleDepthL as ≤ actions_len as :=
  (depth_le_len_aux (sizeOf as)).2 as le_rfl

/-! ### Unfolding the sample executor through its scan result -/

/-- A scan error is the executor's error. -/
theorem execute_sample_of_scan_error {env : Env} {st : St} {a : NlAttr}
    {e : Fatal}
    (hscan : sample_scan env st none (nl_attr_nested a) = .error e) :
    execute_sample env st a = .error e := by
  simp only [execute_sample]
  split <;> simp_all

/-- A failed probability test returns the post-draw state unchanged. -/
theorem execute_sample_of_scan_early {env : Env} {st st' : St} {a : NlAttr}
    (hscan : sample_scan env st none (nl_attr_nested a) =
      .ok (.earlyReturn st')) :
    execute_sample env st a = .ok st' := by
  simp only [execute_sample]
  split <;> simp_all

/-- A completed scan that never saw an actions sub-attribute dereferences
the null `subactions` pointer. -/
theorem execute_sample_of_scan_none {env : Env} {st st' : St} {a : NlAttr}
    (hscan : sample_scan env st none (nl_attr_nested a) =
      .ok (.done st' none)) :
    execute_sample env st a = .error .nullDeref := by
  simp only [execute_sample]
  split <;> simp_all

/-- A completed scan executes the nested list of the final `subactions`. -/
theorem execute_sample_of_scan_some {env : Env} {st st' : St} {a sa : NlAttr}
    (hscan : sample_scan env st none (nl_attr_nested a) =
      .ok (.done st' (some sa))) :
    execute_sample env st a = execute_actions env st' (nl_attr_nested sa) := by
  simp only [execute_sample]
  split <;> simp_all

/-! ### Byte-level lemmas for the packet buffer -/

/-- `memcpy` never changes the buffer length. -/
theorem writeBytes_length (data : List Nat) (off : Nat) (bs : List Nat) :
    (writeBytes data off bs).length = data.length := by
  simp [writeBytes]

/-- Pointwise description of `memcpy`. -/
theorem writeBytes_getD (data : List Nat) (off : Nat) (bs : List Nat)
    (i : Nat) (hi : i < data.length) :
    (writeBytes data off bs).getD i 0 =
      if off ≤ i ∧ i < off + bs.length then bs.getD (i - off) 0
      else data.getD i 0 := by
  simp [writeBytes, List.getD_eq_getElem?_getD, List.getElem?_map,
    List.getElem?_range hi]

/-! ### Concrete collaborators for closed instances -/

/-- Identity packet routines, for closed instances. -/
def ext0 : Ext where
  packet_set_ipv4 := fun p _ _ _ _ => p
  packet_set_ipv6 := fun p _ _ _ _ _ _ => p
  packet_set_tcp_port := fun p _ _ => p
  packet_set_udp_port := fun p _ _ => p
  set_mpls_lse := fun p _ => p
  eth_push_vlan := fun p _ => p
  eth_pop_vlan := fun p => p
  push_mpls := fun p _ _ => p
  pop_mpls := fun p _ => p

/-- A 14-byte all-zero packet with the link-layer header at offset 0. -/
def pkt0 : Ofpbuf := ⟨List.replicate 14 0, 0⟩

/-- Environment with every collaborator present and an all-zeros random
stream. -/
def env0 : Env := ⟨ext0, fun _ => 0, true, true, true⟩

/-- Environment whose random stream always draws `0xFFFFFFFF`. -/
def envFF : Env := ⟨ext0, fun _ => 4294967295, true, true, true⟩

/-- Environment with a null `dp` context and null sinks. -/
def envNone : Env := ⟨ext0, fun _ => 0, false, false, false⟩

/-- Initial state: zero packet, a present flow key, fresh random stream,
empty trace. -/
def st0 : St := ⟨pkt0, some ⟨0⟩, 0, []⟩

/-- `st0` without a flow key (a null key pointer). -/
def stNoKey : St := ⟨pkt0, none, 0, []⟩

/-- Scanning a run of actions-typed sub-attributes only moves the
accumulator: state and continuation are untouched. -/
theorem scan_skip_actions (env : Env) :
    ∀ (pre l : List NlAttr) (st : St) (acc : Option NlAttr),
    (∀ b ∈ pre, b.1 = OVS_SAMPLE_ATTR_ACTIONS) →
    ∃ acc', sample_scan env st acc (pre ++ l) = sample_scan env st acc' l := by
  intro pre
  induction pre with
  | nil =>
    intro l st acc _
    exact ⟨acc, rfl⟩
  | cons b pre' ih =>
    intro l st acc hall
    rcases b with ⟨tb, db⟩
    have hb : tb = OVS_SAMPLE_ATTR_ACTIONS := by
      have := hall (tb, db) (List.mem_cons_self _ _)
      simpa using this
    subst hb
    rw [List.cons_append]
    simp only [sample_scan, nl_attr_type]
    simp
    exact ih l st (some (OVS_SAMPLE_ATTR_ACTIONS, db))
      (fun b hb => hall b (List.mem_cons_of_mem _ hb))

/-- The dispatcher never writes the flow key (successful runs). -/
theorem execute_actions_key (env : Env) (st : St) (as : List NlAttr)
    (st' : St) (h : execute_actions env st as = .ok st') :
    st'.key = st.key := by
  have hz := execF_agrees env (sampleDepthL as + 1) as st (by omega)
  rw [h] at hz
  exact execF_key env _ as st st' hz

/-! ### The claims -/

/-- Claim C1, counterexample: the action list `[(100, u32 0)]` carries an
out-of-range top-level discriminant, yet execution succeeds with the state
untouched — the attribute is silently skipped, no fatal path is taken. -/
theorem C1_counterexample :
    execute_actions env0 st0 [((100 : Nat), NlData.u32 0)] = .ok st0 ∧
    ∀ e, execute_actions env0 st0 [((100 : Nat), NlData.u32 0)] ≠ .error e := by
  have h : execute_actions env0 st0 [((100 : Nat), NlData.u32 0)] = .ok st0 :=
    execF_sound env0 1 st0 _ _ rfl
  exact ⟨h, by simp [h]⟩

/-- Claim C1, amended: an out-of-range top-level discriminant triggers the
fatal contract-violation path only when it is the reserved value or the max
sentinel; any other unrecognized discriminant matches no `switch` case (the
`switch` has no `default`) and is silently skipped, execution continuing
with the next action. -/
theorem C1_amended : ∀ (env : Env) (st : St) (a : NlAttr) (rest : List NlAttr),
    ¬(1 ≤ a.1 ∧ a.1 ≤ 8) →
    execute_actions env st (a :: rest) =
      if a.1 = OVS_ACTION_ATTR_UNSPEC ∨ a.1 = OVS_ACTION_ATTR_MAX_SENTINEL
      then .error .notReached
      else execute_actions env st rest := by
  intro env st a rest h
  rcases a with ⟨t, d⟩
  simp only at h
  have h1 : ¬t = 1 := by omega
  have h2 : ¬t = 2 := by omega
  have h3 : ¬t = 3 := by omega
  have h4 : ¬t = 4 := by omega
  have h5 : ¬t = 5 := by omega
  have h6 : ¬t = 6 := by omega
  have h7 : ¬t = 7 := by omega
  have h8 : ¬t = 8 := by omega
  rw [execute_actions.eq_def]
  simp [nl_attr_type, h1, h2, h3, h4, h5, h6, h7, h8]

/-- Claim C1, witness for the amended statement at discriminant 100. -/
theorem C1_amended_witness :
    ¬(1 ≤ (((100 : Nat), NlData.u32 0) : NlAttr).1 ∧
        (((100 : Nat), NlData.u32 0) : NlAttr).1 ≤ 8) ∧
    execute_actions env0 st0 [((100 : Nat), NlData.u32 0)] =
      (if (((100 : Nat), NlData.u32 0) : NlAttr).1 = OVS_ACTION_ATTR_UNSPEC ∨
          (((100 : Nat), NlData.u32 0) : NlAttr).1 = OVS_ACTION_ATTR_MAX_SENTINEL
       then .error .notReached
       else execute_actions env0 st0 []) :=
  ⟨by decide, C1_amended env0 st0 ((100 : Nat), NlData.u32 0) [] (by decide)⟩

/-- Claim C3: an action list of Output actions invokes the output sink
exactly once per action, in list order, each time with the 32-bit port read
from that attribute, and execution continues past every output. -/
theorem C3_outputs_in_order : ∀ (env : Env) (as : List NlAttr) (st : St),
    env.dp = true → env.output = true →
    (∀ a ∈ as, nl_attr_type a = OVS_ACTION_ATTR_OUTPUT) →
    execute_actions env st as =
      .ok { st with events := (st.events ++
        as.map (fun a => Event.output st.packet (nl_attr_get_u32 a))) } := by
  intro env as
  induction as with
  | nil =>
    intro st _ _ _
    rw [execute_actions.eq_def]
    simp
  | cons a rest ih =>
    intro st hdp hout hall
    rcases a with ⟨t, d⟩
    have ht : t = OVS_ACTION_ATTR_OUTPUT := by
      have := hall (t, d) (List.mem_cons_self _ _)
      simpa [nl_attr_type] using this
    subst ht
    rw [execute_actions.eq_def]
    simp only [nl_attr_type]
    simp [hdp, hout]
    rw [ih _ hdp hout (fun b hb => hall b (List.mem_cons_of_mem _ hb))]
    simp

/-- Claim C3, witness: two outputs with ports 5 and 7. -/
theorem C3_witness :
    env0.dp = true ∧ env0.output = true ∧
    (∀ a ∈ ([((1 : Nat), NlData.u32 5), ((1 : Nat), NlData.u32 7)] :
        List NlAttr), nl_attr_type a = OVS_ACTION_ATTR_OUTPUT) ∧
    execute_actions env0 st0 [((1 : Nat), NlData.u32 5), ((1 : Nat), NlData.u32 7)] =
      .ok { st0 with events := (st0.events ++
        [((1 : Nat), NlData.u32 5), ((1 : Nat), NlData.u32 7)].map
          (fun a => Event.output st0.packet (nl_attr_get_u32 a))) } :=
  ⟨rfl, rfl, by decide,
    C3_outputs_in_order env0 _ st0 rfl rfl (by decide)⟩

/-- Claim C5: every match-only field-group sub-discriminant reaching the
field-set executor is a fatal contract violation, never a no-op and never
applied to the packet. -/
theorem C5_match_only_fatal : ∀ (ext : Ext) (packet : Ofpbuf) (t : Nat)
    (d : NlData),
    (t = OVS_KEY_ATTR_UNSPEC ∨ t = OVS_KEY_ATTR_ENCAP ∨
     t = OVS_KEY_ATTR_ETHERTYPE ∨ t = OVS_KEY_ATTR_IN_PORT ∨
     t = OVS_KEY_ATTR_VLAN ∨ t = OVS_KEY_ATTR_ICMP ∨
     t = OVS_KEY_ATTR_ICMPV6 ∨ t = OVS_KEY_ATTR_ARP ∨ t = OVS_KEY_ATTR_ND) →
    execute_set_action ext packet (t, d) = .error .notReached := by
  intro ext packet t d h
  rcases h with rfl | rfl | rfl | rfl | rfl | rfl | rfl | rfl | rfl <;>
    simp [execute_set_action, nl_attr_type]

/-- Claim C5, witness at the ARP sub-discriminant. -/
theorem C5_witness :
    ((13 : Nat) = OVS_KEY_ATTR_UNSPEC ∨ (13 : Nat) = OVS_KEY_ATTR_ENCAP ∨
     (13 : Nat) = OVS_KEY_ATTR_ETHERTYPE ∨ (13 : Nat) = OVS_KEY_ATTR_IN_PORT ∨
     (13 : Nat) = OVS_KEY_ATTR_VLAN ∨ (13 : Nat) = OVS_KEY_ATTR_ICMP ∨
     (13 : Nat) = OVS_KEY_ATTR_ICMPV6 ∨ (13 : Nat) = OVS_KEY_ATTR_ARP ∨
     (13 : Nat) = OVS_KEY_ATTR_ND) ∧
    execute_set_action ext0 pkt0 ((13 : Nat), NlData.u32 0) =
      .error .notReached :=
  ⟨by decide, C5_match_only_fatal ext0 pkt0 13 (NlData.u32 0) (by decide)⟩

/-- Claim C6: Output requires the context and output sink, exception
 delivery additionally the flow key; with them present the assertion passes
and the matching sink is invoked with the forwarded arguments, with any of
them absent the assertion fails fatally. -/
theorem C6_sink_preconditions : ∀ (env : Env) (st : St) (d : NlData)
    (rest : List NlAttr),
    ((env.dp && env.output) = true →
      execute_actions env st ((OVS_ACTION_ATTR_OUTPUT, d) :: rest) =
        execute_actions env
          { st with events := st.events ++
              [.output st.packet (nl_attr_get_u32 (OVS_ACTION_ATTR_OUTPUT, d))] }
          rest) ∧
    ((env.dp && env.output) = false →
      execute_actions env st ((OVS_ACTION_ATTR_OUTPUT, d) :: rest) =
        .error .assertFailed) ∧
    (∀ k, (env.dp && env.userspace) = true → st.key = some k →
      execute_actions env st ((OVS_ACTION_ATTR_USERSPACE, d) :: rest) =
        execute_actions env
          { st with events := st.events ++
              [.userspace st.packet k (OVS_ACTION_ATTR_USERSPACE, d)] } rest) ∧
    (((env.dp && env.userspace) = false ∨ st.key = none) →
      execute_actions env st ((OVS_ACTION_ATTR_USERSPACE, d) :: rest) =
        .error .assertFailed) := by
  intro env st d rest
  refine ⟨?_, ?_, ?_, ?_⟩
  · intro hb
    rw [execute_actions.eq_def]
    simp [nl_attr_type, hb]
  · intro hb
    rw [execute_actions.eq_def]
    simp [nl_attr_type, hb]
  · intro k hb hk
    rw [execute_actions.eq_def]
    simp [nl_attr_type, hb, hk]
  · intro hor
    rw [execute_actions.eq_def]
    rcases hor with hb | hk
    · simp [nl_attr_type, hb]
    · cases hb : env.dp && env.userspace
      · simp [nl_attr_type, hb]
      · simp [nl_attr_type, hb, hk]

/-- Claim C6, witness: all four preconditions exercised concretely. -/
theorem C6_witness :
    ((env0.dp && env0.output) = true ∧
      execute_actions env0 st0 [((1 : Nat), NlData.u32 3)] =
        execute_actions env0
          { st0 with events := st0.events ++
              [.output st0.packet (nl_attr_get_u32 ((1 : Nat), NlData.u32 3))] }
          []) ∧
    ((envNone.dp && envNone.output) = false ∧
      execute_actions envNone st0 [((1 : Nat), NlData.u32 3)] =
        .error .assertFailed) ∧
    ((env0.dp && env0.userspace) = true ∧ st0.key = some ⟨0⟩ ∧
      execute_actions env0 st0 [((2 : Nat), NlData.u32 3)] =
        execute_actions env0
          { st0 with events := st0.events ++
              [.userspace st0.packet ⟨0⟩ ((2 : Nat), NlData.u32 3)] } []) ∧
    (stNoKey.key = none ∧
      execute_actions env0 stNoKey [((2 : Nat), NlData.u32 3)] =
        .error .assertFailed) :=
  ⟨⟨rfl, (C6_sink_preconditions env0 st0 (NlData.u32 3) []).1 rfl⟩,
   ⟨rfl, (C6_sink_preconditions envNone st0 (NlData.u32 3) []).2.1 rfl⟩,
   ⟨rfl, rfl, (C6_sink_preconditions env0 st0 (NlData.u32 3) []).2.2.1 ⟨0⟩ rfl rfl⟩,
   ⟨rfl, (C6_sink_preconditions env0 stNoKey (NlData.u32 3) []).2.2.2 (.inr rfl)⟩⟩

/-- Claim C2, counterexample: with threshold `0xFFFFFFFF` and the draw
`0xFFFFFFFF`, the probability test `draw >= threshold` succeeds and the
sample returns after consuming the draw — the nested Output list is NOT
executed (no output event), refuting "executed on every draw".  The second
conjunct shows the nested list, had it run, would have produced an output
event. -/
theorem C2_counterexample :
    execute_sample envFF st0
      ((6 : Nat), .nestedList [((1 : Nat), .u32 4294967295),
        ((2 : Nat), .nestedList [((1 : Nat), .u32 7)])]) =
      .ok ⟨pkt0, some ⟨0⟩, 1, []⟩ ∧
    execute_actions envFF (⟨pkt0, some ⟨0⟩, 1, []⟩ : St)
      [((1 : Nat), .u32 7)] =
      .ok ⟨pkt0, some ⟨0⟩, 1, [.output pkt0 7]⟩ :=
  ⟨execute_sample_of_scan_early rfl, execF_sound envFF 1 _ _ _ rfl⟩

/-- Claim C2, amended: the sample executor consumes one 32-bit draw per
probability sub-attribute and runs the nested list iff the draw is
strictly below the threshold — so threshold 0 never runs it, threshold
`0xFFFFFFFF` runs it on every draw except the draw `0xFFFFFFFF` itself,
and an absent threshold always runs it (and consumes no draw). -/
theorem C2_amended :
    (∀ (env : Env) (st : St) (T : Nat) (L : List NlAttr), T < 4294967296 →
      execute_sample env st
        ((6 : Nat), .nestedList [((1 : Nat), .u32 T),
          ((2 : Nat), .nestedList L)]) =
        (if random_uint32 env st < T then
          execute_actions env { st with rngIdx := st.rngIdx + 1 } L
         else .ok { st with rngIdx := st.rngIdx + 1 })) ∧
    (∀ (env : Env) (st : St) (L : List NlAttr),
      execute_sample env st
        ((6 : Nat), .nestedList [((1 : Nat), .u32 0),
          ((2 : Nat), .nestedList L)]) =
        .ok { st with rngIdx := st.rngIdx + 1 }) ∧
    (∀ (env : Env) (st : St) (L : List NlAttr),
      execute_sample env st
        ((6 : Nat), .nestedList [((2 : Nat), .nestedList L)]) =
        execute_actions env st L) := by
  refine ⟨?_, ?_, ?_⟩
  · intro env st T L hT
    have hmod : T % 4294967296 = T := Nat.mod_eq_of_lt hT
    by_cases hd : random_uint32 env st < T
    · have hscan : sample_scan env st none
          (nl_attr_nested ((6 : Nat), .nestedList [((1 : Nat), .u32 T),
            ((2 : Nat), .nestedList L)])) =
          .ok (.done { st with rngIdx := st.rngIdx + 1 }
            (some ((2 : Nat), .nestedList L))) := by
        simp [sample_scan, nl_attr_nested, nl_attr_type, nl_attr_get_u32,
          hmod, Nat.not_le.mpr hd]
      rw [execute_sample_of_scan_some hscan, if_pos hd]
      simp [nl_attr_nested]
    · have hscan : sample_scan env st none
          (nl_attr_nested ((6 : Nat), .nestedList [((1 : Nat), .u32 T),
            ((2 : Nat), .nestedList L)])) =
          .ok (.earlyReturn { st with rngIdx := st.rngIdx + 1 }) := by
        simp [sample_scan, nl_attr_nested, nl_attr_type, nl_attr_get_u32,
          hmod, Nat.not_lt.mp hd]
      rw [execute_sample_of_scan_early hscan, if_neg hd]
  · intro env st L
    have hscan : sample_scan env st none
        (nl_attr_nested ((6 : Nat), .nestedList [((1 : Nat), .u32 0),
          ((2 : Nat), .nestedList L)])) =
        .ok (.earlyReturn { st with rngIdx := st.rngIdx + 1 }) := by
      simp [sample_scan, nl_attr_nested, nl_attr_type, nl_attr_get_u32]
    exact execute_sample_of_scan_early hscan
  · intro env st L
    have hscan : sample_scan env st none
        (nl_attr_nested ((6 : Nat), .nestedList [((2 : Nat), .nestedList L)])) =
        .ok (.done st (some ((2 : Nat), .nestedList L))) := by
      simp [sample_scan, nl_attr_nested, nl_attr_type]
    rw [execute_sample_of_scan_some hscan]
    simp [nl_attr_nested]

/-- Claim C2, witness: threshold 5 against the draw 0 runs the nested
list. -/
theorem C2_amended_witness :
    (5 : Nat) < 4294967296 ∧
    execute_sample env0 st0
      ((6 : Nat), .nestedList [((1 : Nat), .u32 5),
        ((2 : Nat), .nestedList [((1 : Nat), .u32 9)])]) =
      (if random_uint32 env0 st0 < 5 then
        execute_actions env0 { st0 with rngIdx := st0.rngIdx + 1 }
          [((1 : Nat), .u32 9)]
       else .ok { st0 with rngIdx := st0.rngIdx + 1 }) :=
  ⟨by decide, C2_amended.1 env0 st0 5 [((1 : Nat), .u32 9)] (by decide)⟩

/-- Claim C4: when the probability test fails, the sample executor returns
at once having consumed exactly the one draw: packet, flow key and event
trace are untouched, and nothing after the probability sub-attribute —
including nested sample actions — is evaluated or draws randomness. -/
theorem C4_failed_sample_no_effects : ∀ (env : Env) (st : St) (T : Nat)
    (pre tail : List NlAttr),
    (∀ b ∈ pre, b.1 = OVS_SAMPLE_ATTR_ACTIONS) → T < 4294967296 →
    random_uint32 env st ≥ T →
    execute_sample env st
      ((6 : Nat), .nestedList (pre ++ ((1 : Nat), .u32 T) :: tail)) =
      .ok { st with rngIdx := st.rngIdx + 1 } := by
  intro env st T pre tail hpre hT hge
  have hmod : T % 4294967296 = T := Nat.mod_eq_of_lt hT
  obtain ⟨acc', hacc⟩ :=
    scan_skip_actions env pre (((1 : Nat), .u32 T) :: tail) st none hpre
  have hscan : sample_scan env st none
      (nl_attr_nested ((6 : Nat),
        .nestedList (pre ++ ((1 : Nat), .u32 T) :: tail))) =
      .ok (.earlyReturn { st with rngIdx := st.rngIdx + 1 }) := by
    simp only [nl_attr_nested]
    rw [hacc]
    simp [sample_scan, nl_attr_type, nl_attr_get_u32, hmod, hge]
  exact execute_sample_of_scan_early hscan

/-- Claim C4, witness: a failing threshold-0 sample whose tail holds a
nested sample; one draw consumed, no effects. -/
theorem C4_witness :
    (∀ b ∈ ([((2 : Nat), NlData.nestedList [((1 : Nat), NlData.u32 9)])] :
        List NlAttr), b.1 = OVS_SAMPLE_ATTR_ACTIONS) ∧
    (0 : Nat) < 4294967296 ∧
    random_uint32 env0 st0 ≥ 0 ∧
    execute_sample env0 st0
      ((6 : Nat), .nestedList
        ([((2 : Nat), NlData.nestedList [((1 : Nat), NlData.u32 9)])] ++
          ((1 : Nat), .u32 0) ::
            [((2 : Nat), NlData.nestedList
              [((6 : Nat), NlData.nestedList [])])])) =
      .ok { st0 with rngIdx := st0.rngIdx + 1 } :=
  ⟨by decide, by decide, by decide,
    C4_failed_sample_no_effects env0 st0 0 _ _ (by decide) (by decide)
      (by decide)⟩

/-- Claim C7: a Set(Ethernet) with a valid cached link-layer header
overwrites exactly the 6 destination bytes (at the header start) and the
6 source bytes (at offset 6) with the supplied addresses; every other byte
of the buffer, the buffer length and the cached offset are unchanged. -/
theorem C7_set_ethernet_frame : ∀ (ext : Ext) (packet : Ofpbuf)
    (src dst : List Nat),
    src.length = 6 → dst.length = 6 → packet.l2 + 12 ≤ packet.data.length →
    execute_set_action ext packet ((4 : Nat), .ethKey src dst) =
      .ok (eth_set_src_and_dst packet src dst) ∧
    (eth_set_src_and_dst packet src dst).l2 = packet.l2 ∧
    (eth_set_src_and_dst packet src dst).data.length = packet.data.length ∧
    ∀ i, i < packet.data.length →
      (eth_set_src_and_dst packet src dst).data.getD i 0 =
        (if packet.l2 ≤ i ∧ i < packet.l2 + 6 then dst.getD (i - packet.l2) 0
         else if packet.l2 + 6 ≤ i ∧ i < packet.l2 + 12 then
           src.getD (i - (packet.l2 + 6)) 0
         else packet.data.getD i 0) := by
  intro ext packet src dst hsrc hdst hfit
  refine ⟨?_, rfl, ?_, ?_⟩
  · simp [execute_set_action, nl_attr_type]
  · simp [eth_set_src_and_dst, writeBytes_length]
  · intro i hi
    simp only [eth_set_src_and_dst]
    rw [writeBytes_getD _ _ _ i (by rw [writeBytes_length]; exact hi)]
    rw [writeBytes_getD _ _ _ i hi]
    rw [hsrc, hdst]

/-- Claim C7, witness: concrete addresses on the 14-byte zero packet. -/
theorem C7_witness :
    ([1, 2, 3, 4, 5, 6] : List Nat).length = 6 ∧
    ([7, 8, 9, 10, 11, 12] : List Nat).length = 6 ∧
    pkt0.l2 + 12 ≤ pkt0.data.length ∧
    execute_set_action ext0 pkt0
      ((4 : Nat), .ethKey [1, 2, 3, 4, 5, 6] [7, 8, 9, 10, 11, 12]) =
      .ok (eth_set_src_and_dst pkt0 [1, 2, 3, 4, 5, 6] [7, 8, 9, 10, 11, 12]) :=
  ⟨by decide, by decide, by decide,
    (C7_set_ethernet_frame ext0 pkt0 [1, 2, 3, 4, 5, 6] [7, 8, 9, 10, 11, 12]
      (by decide) (by decide) (by decide)).1⟩

/-- Claim C8: `execute_actions` terminates on every action list — the
fuel-indexed executor with any fuel above the sample-nesting demand of the
list computes exactly its (total) value, and that demand is bounded by the
encoded buffer length.  The recursion passes `env` (context, sinks, random
stream) unchanged by construction. -/
theorem C8_terminates : ∀ (env : Env) (fuel : Nat) (st : St)
    (as : List NlAttr),
    (sampleDepthL as < fuel →
      execF env fuel st as = some (execute_actions env st as)) ∧
    sampleDepthL as ≤ actions_len as :=
  fun env fuel st as =>
    ⟨fun hd => execF_agrees env fuel as st hd, sampleDepthL_le_actions_len as⟩

/-- Claim C8, witness: a single output action at fuel 1. -/
theorem C8_witness :
    sampleDepthL [((1 : Nat), NlData.u32 5)] < 1 ∧
    execF env0 1 st0 [((1 : Nat), NlData.u32 5)] =
      some (execute_actions env0 st0 [((1 : Nat), NlData.u32 5)]) ∧
    sampleDepthL [((1 : Nat), NlData.u32 5)] ≤
      actions_len [((1 : Nat), NlData.u32 5)] := by
  have hd : sampleDepthL [((1 : Nat), NlData.u32 5)] < 1 := by
    simp [sampleDepthL, sampleDepthA]
  exact ⟨hd, (C8_terminates env0 1 st0 _).1 hd, (C8_terminates env0 1 st0 _).2⟩

/-- Claim C9: neither the dispatcher nor the sample executor ever writes
the flow key — a successful run returns it exactly as it was (the recorded
sink invocations receive it by reference and the model sinks do not mutate
it). -/
theorem C9_key_unchanged :
    (∀ (env : Env) (st : St) (as : List NlAttr) (st' : St),
      execute_actions env st as = .ok st' → st'.key = st.key) ∧
    (∀ (env : Env) (st : St) (a : NlAttr) (st' : St),
      execute_sample env st a = .ok st' → st'.key = st.key) := by
  refine ⟨execute_actions_key, ?_⟩
  intro env st a st' h
  cases hscan : sample_scan env st none (nl_attr_nested a) with
  | error e =>
    rw [execute_sample_of_scan_error hscan] at h
    cases h
  | ok r =>
    cases r with
    | earlyReturn s1 =>
      rw [execute_sample_of_scan_early hscan] at h
      have hs := sample_scan_state env _ _ _ _ hscan
      simp [ScanResult.state] at hs
      cases h
      exact hs.1
    | done s1 sub =>
      cases sub with
      | none =>
        rw [execute_sample_of_scan_none hscan] at h
        cases h
      | some sa =>
        rw [execute_sample_of_scan_some hscan] at h
        have hs := sample_scan_state env _ _ _ _ hscan
        simp [ScanResult.state] at hs
        rw [execute_actions_key env s1 _ st' h, hs.1]

/-- Claim C9, witness: key preserved across an output action. -/
theorem C9_witness :
    execute_actions env0 st0 [((1 : Nat), NlData.u32 5)] =
      .ok ⟨pkt0, some ⟨0⟩, 0, [.output pkt0 5]⟩ ∧
    (⟨pkt0, some ⟨0⟩, 0, [.output pkt0 5]⟩ : St).key = st0.key := by
  have h : execute_actions env0 st0 [((1 : Nat), NlData.u32 5)] =
      .ok ⟨pkt0, some ⟨0⟩, 0, [.output pkt0 5]⟩ :=
    execF_sound env0 1 st0 _ _ rfl
  exact ⟨h, C9_key_unchanged.1 env0 st0 _ _ h⟩

/-- Claim C10: `subactions` starts null; when the sample attribute holds
exactly one actions sub-attribute, a completed scan always leaves a valid
actions attribute in it, while a sample with no actions sub-attribute
whose probability test passes (or is absent) dereferences the null
pointer. -/
theorem C10_subactions :
    (∀ (env : Env) (st : St) (subs : List NlAttr) (st' : St)
        (sub : Option NlAttr),
      (subs.filter (fun b => b.1 == OVS_SAMPLE_ATTR_ACTIONS)).length = 1 →
      sample_scan env st none subs = .ok (.done st' sub) →
      ∃ sa, sub = some sa ∧ sa ∈ subs ∧ sa.1 = OVS_SAMPLE_ATTR_ACTIONS) ∧
    (∀ (env : Env) (st : St),
      execute_sample env st ((6 : Nat), .nestedList []) =
        .error .nullDeref) ∧
    (∀ (env : Env) (st : St) (T : Nat), T < 4294967296 →
      random_uint32 env st < T →
      execute_sample env st
        ((6 : Nat), .nestedList [((1 : Nat), .u32 T)]) =
        .error .nullDeref) := by
  refine ⟨?_, ?_, ?_⟩
  · intro env st subs st' sub hcount hscan
    cases sub with
    | none =>
      rcases sample_scan_done_none env _ _ _ _ hscan with ⟨_, hall⟩
      have hnil : subs.filter (fun b => b.1 == OVS_SAMPLE_ATTR_ACTIONS) = [] := by
        apply List.filter_eq_nil_iff.mpr
        intro b hb
        simpa using hall b hb
      rw [hnil] at hcount
      cases hcount
    | some sa =>
      rcases sample_scan_done_some env _ _ _ _ _ hscan with hacc | ⟨hm, ht⟩
      · cases hacc
      · exact ⟨sa, rfl, hm, ht⟩
  · intro env st
    exact @execute_sample_of_scan_none env st st ((6 : Nat), .nestedList [])
      (by simp [sample_scan, nl_attr_nested])
  · intro env st T hT hd
    have hmod : T % 4294967296 = T := Nat.mod_eq_of_lt hT
    exact @execute_sample_of_scan_none env st
      { st with rngIdx := st.rngIdx + 1 }
      ((6 : Nat), .nestedList [((1 : Nat), .u32 T)])
      (by simp [sample_scan, nl_attr_nested, nl_attr_type, nl_attr_get_u32,
        hmod, Nat.not_le.mpr hd])

/-- Claim C10, witness: a scan with exactly one actions sub-attribute, and
a threshold-only sample that crashes on the null dereference. -/
theorem C10_witness :
    (([((1 : Nat), NlData.u32 4294967295),
        ((2 : Nat), NlData.nestedList [])] : List NlAttr).filter
      (fun b => b.1 == OVS_SAMPLE_ATTR_ACTIONS)).length = 1 ∧
    sample_scan env0 st0 none
      [((1 : Nat), NlData.u32 4294967295), ((2 : Nat), NlData.nestedList [])] =
      .ok (.done { st0 with rngIdx := 1 }
        (some ((2 : Nat), NlData.nestedList []))) ∧
    (∃ sa, (some ((2 : Nat), NlData.nestedList []) : Option NlAttr) = some sa ∧
      sa ∈ ([((1 : Nat), NlData.u32 4294967295),
        ((2 : Nat), NlData.nestedList [])] : List NlAttr) ∧
      sa.1 = OVS_SAMPLE_ATTR_ACTIONS) ∧
    ((1 : Nat) < 4294967296 ∧ random_uint32 env0 st0 < 1 ∧
      execute_sample env0 st0 ((6 : Nat), .nestedList [((1 : Nat), .u32 1)]) =
        .error .nullDeref) :=
  ⟨by decide, by rfl,
    C10_subactions.1 env0 st0 _ _ _ (by decide) (by rfl),
    by decide, by decide,
    C10_subactions.2.2 env0 st0 1 (by decide) (by decide)⟩

end Ovs
